import Mathlib

/-!
Verification of the SmartHire matching/scoring engine
(`src/resume_parser/matcher.py`).

The Python engine is shallowly embedded as follows.

* Python strings are Lean `String`s; the character-level operations
  (`str.lower`, `str.strip`, the `re.sub` character filter, `str.replace`)
  are implemented on `List Char`.  Python's `lower`/`strip`/`\w`/`\s` are
  Unicode-aware; the embedding models their ASCII behaviour, which agrees
  with Python on all ASCII data (all data appearing in the repository and
  in the claims is ASCII).
* Python `float` arithmetic is modelled exactly: rational operations over
  `ℚ` and the transcendental operations `x ** 0.5` and `math.exp` over `ℝ`
  (`Real.sqrt`, `Real.exp`).
* Python sets of strings are modelled as duplicate-free insertion-ordered
  lists; only membership and cardinality of these sets are ever observed
  by the engine.
* Python `round(x, n)` (banker's rounding) is modelled by `round` (ties
  away from the midpoint); the two differ only at exact decimal ties,
  which never arise in any statement proved below.
* A candidate profile / job posting is a record of `Option`-valued fields;
  `dict.get(key, default)` is `Option.getD`.  A job-pool entry whose
  processing would raise an exception (malformed field types) is modelled
  as `none` in the pool handed to `match_jobs`: the Python `try/except`
  around the per-job body skips exactly those entries.
  `load_jobs_data` performs I/O and is an external collaborator (spec
  section 1); `match_jobs` therefore takes the already-loaded pool as an
  argument.
* `difflib.SequenceMatcher.ratio` (Python standard library, not part of
  this repository) is modelled from its documented algorithm: the total
  size of the matching blocks (recursively: longest matching block,
  earliest in `a`, then earliest in `b`) divided by the average length.
  No junk heuristic applies, since autojunk only affects sequences of
  length at least 200.
-/

/-! ## Character and string primitives -/

/-- ASCII model of Python `str.lower()` (`Char.toLower` lowers exactly
the ASCII uppercase letters). -/
def lowerData (l : List Char) : List Char := l.map Char.toLower

/-- ASCII model of Python `str.strip()`: drop whitespace at both ends. -/
def trimData (l : List Char) : List Char :=
  ((l.dropWhile Char.isWhitespace).reverse.dropWhile Char.isWhitespace).reverse

/-- Characters kept by `re.sub(r'[^\w\s\.\+\-]', '', skill)`:
word characters, whitespace, and `.` `+` `-`. -/
def isKeptChar (c : Char) : Bool :=
  c.isAlphanum || c = '_' || c.isWhitespace || c = '.' || c = '+' || c = '-'

/-- Model of Python `s.replace(pat, '')` for a non-empty `pat`:
remove every non-overlapping occurrence, scanning left to right and
continuing after each removed occurrence.  The fuel is an upper bound on
the number of scanning steps (each step consumes at least one character),
so it is never exhausted when `fuel = l.length`. -/
def stripAllAux (pat : List Char) : Nat → List Char → List Char
  | 0, l => l
  | _ + 1, [] => []
  | fuel + 1, c :: t =>
    if pat.isPrefixOf (c :: t) then stripAllAux pat fuel (List.drop (pat.length - 1) t)
    else c :: stripAllAux pat fuel t

/-- Remove all occurrences of `pat` from `l` (Python `l.replace(pat, '')`). -/
def stripAll (pat l : List Char) : List Char := stripAllAux pat l.length l

/-- Per-token cleaning in `normalize_skills`:
`skill.lower().strip()`, then `re.sub(r'[^\w\s\.\+\-]', '', skill)`,
then `skill.replace('.js', '').replace('.py', '')`. -/
def cleanSkill (s : String) : String :=
  String.mk (stripAll ".py".data (stripAll ".js".data
    ((trimData (lowerData s.data)).filter isKeptChar)))

/-- Words of a string, Python `s.split()`: split on whitespace runs,
discarding empty pieces.  The accumulator holds the current word
reversed. -/
def splitWSAux : List Char → List Char → List (List Char)
  | [], acc => if acc = [] then [] else [acc.reverse]
  | c :: t, acc =>
    if c.isWhitespace then
      (if acc = [] then splitWSAux t [] else acc.reverse :: splitWSAux t [])
    else splitWSAux t (c :: acc)

/-- Python `needle in hay` on strings: contiguous substring test. -/
def substrOf (needle hay : List Char) : Bool := decide (needle <:+: hay)

/-! ## Model of `difflib.SequenceMatcher.ratio` (Python stdlib) -/

/-- Length of the longest common prefix of two character lists. -/
def cpl : List Char → List Char → Nat
  | a :: as, b :: bs => if a = b then cpl as bs + 1 else 0
  | _, _ => 0

/-- Longest matching block `(i, j, k)` of two sequences:
maximal `k` with `a[i:i+k] = b[j:j+k]`, earliest `i`, then earliest `j`
(the block returned by `SequenceMatcher.find_longest_match` with no
junk).  Scanning row-major with a strict improvement test realises the
tie-breaking order. -/
def bestBlock (a b : List Char) : Nat × Nat × Nat :=
  (List.range a.length).foldl (fun best i =>
    (List.range b.length).foldl (fun best j =>
      let k := cpl (a.drop i) (b.drop j)
      if best.2.2 < k then (i, j, k) else best) best) (0, 0, 0)

/-- Total size of the matching blocks of `get_matching_blocks`: take the
longest matching block and recurse on the pieces to its left and to its
right.  The fuel `a.length + b.length` strictly exceeds the recursion
depth (each recursive call strictly decreases the combined length). -/
def matchTotalAux : Nat → List Char → List Char → Nat
  | 0, _, _ => 0
  | fuel + 1, a, b =>
    let ijk := bestBlock a b
    if ijk.2.2 = 0 then 0
    else
      matchTotalAux fuel (a.take ijk.1) (b.take ijk.2.1) + ijk.2.2 +
        matchTotalAux fuel (a.drop (ijk.1 + ijk.2.2)) (b.drop (ijk.2.1 + ijk.2.2))

/-- Total matched size `M` used by `SequenceMatcher.ratio`. -/
def matchTotal (a b : List Char) : Nat := matchTotalAux (a.length + b.length) a b

/-- Model of `SequenceMatcher(None, a, b).ratio() = 2*M / (len(a)+len(b))`
(`1.0` when both sequences are empty, as in `difflib._calculate_ratio`). -/
def seqMatchScore (a b : String) : ℚ :=
  if a.data.length + b.data.length = 0 then 1
  else (2 * matchTotal a.data b.data : ℚ) / ((a.data.length + b.data.length : ℕ) : ℚ)

/-! ## Module-level tables of `matcher.py` -/

/-- Weight constant `SKILL_WEIGHT = 0.5`. -/
def SKILL_WEIGHT : ℚ := 1/2

/-- Weight constant `EXP_WEIGHT = 0.3`. -/
def EXP_WEIGHT : ℚ := 3/10

/-- Weight constant `EDU_WEIGHT = 0.2`. -/
def EDU_WEIGHT : ℚ := 1/5

/-- The `SKILL_SYNONYMS` dict, in its (insertion-ordered) iteration
order. -/
def SKILL_SYNONYMS : List (String × List String) :=
  [("javascript", ["js", "javascript", "ecmascript", "node.js", "nodejs"]),
   ("python", ["python", "python3", "py"]),
   ("java", ["java", "java8", "java11", "java17"]),
   ("react", ["react", "reactjs", "react.js"]),
   ("angular", ["angular", "angularjs", "angular2+"]),
   ("vue", ["vue", "vuejs", "vue.js"]),
   ("node.js", ["node", "nodejs", "node.js"]),
   ("mongodb", ["mongodb", "mongo", "nosql"]),
   ("mysql", ["mysql", "sql"]),
   ("postgresql", ["postgresql", "postgres", "sql"]),
   ("aws", ["aws", "amazon web services", "cloud"]),
   ("docker", ["docker", "containerization"]),
   ("kubernetes", ["kubernetes", "k8s"]),
   ("machine learning", ["ml", "machine learning", "artificial intelligence", "ai"]),
   ("data science", ["data science", "data analysis", "analytics"]),
   ("html", ["html", "html5"]),
   ("css", ["css", "css3", "styling"]),
   ("git", ["git", "version control", "github", "gitlab"]),
   ("rest api", ["rest", "api", "restful", "web services"]),
   ("graphql", ["graphql", "graph ql"]),
   ("typescript", ["typescript", "ts"]),
   ("express", ["express", "expressjs", "express.js"]),
   ("django", ["django", "python web framework"]),
   ("flask", ["flask", "python web framework"]),
   ("spring", ["spring", "spring boot", "java framework"]),
   ("devops", ["devops", "ci/cd", "deployment"]),
   ("agile", ["agile", "scrum", "kanban"]),
   ("testing", ["testing", "unit testing", "integration testing", "qa"]),
   ("frontend", ["frontend", "front-end", "ui", "user interface"]),
   ("backend", ["backend", "back-end", "server-side"]),
   ("fullstack", ["fullstack", "full-stack", "full stack"])]

/-- The `EDUCATION_LEVELS` dict, in iteration order. -/
def EDUCATION_LEVELS : List (String × Nat) :=
  [("phd", 5), ("doctorate", 5),
   ("master", 4), ("msc", 4), ("mtech", 4), ("mba", 4), ("m.e", 4),
   ("bachelor", 3), ("btech", 3), ("b.e", 3), ("bsc", 3), ("b.e.", 3),
   ("diploma", 2),
   ("certification", 1), ("certificate", 1)]

/-! ## `normalize_skills` -/

/-- Insertion into the model of a Python `set` (duplicate-free list). -/
def insertUniq (l : List String) (s : String) : List String :=
  if s ∈ l then l else l ++ [s]

/-- Model of `set.update(synonyms)`: insert each element in turn. -/
def addAll (l xs : List String) : List String := xs.foldl insertUniq l

/-- The function `normalize_skills`: clean each non-empty token, add it,
and if some synonym group contains it, add that group's whole list.  The
`for ... break` over `SKILL_SYNONYMS.items()` adds only the first
matching group, which `List.find?` captures. -/
def normalize_skills (skills : List String) : List String :=
  skills.foldl (fun acc skill =>
    if skill = "" then acc
    else
      let s := cleanSkill skill
      let acc1 := insertUniq acc s
      match SKILL_SYNONYMS.find? (fun g => g.2.contains s) with
      | some g => addAll acc1 g.2
      | none => acc1) []

/-! ## `calculate_skill_similarity` -/

/-- Best fuzzy similarity of one unmatched job skill against all
unmatched candidate skills: ratios above the `0.8` threshold compete,
everything else scores `0`. -/
def bestFuzzy (uC : List String) (js : String) : ℚ :=
  uC.foldl (fun best cs =>
    let r := seqMatchScore js cs
    if 4/5 < r then max best r else best) 0

/-- The local `exact_matches = len(candidate_set & job_set)`: since both
normalized sets are duplicate-free, counting the members of `J` that lie
in `C` is the cardinality of the intersection. -/
def exactMatches (C J : List String) : Nat := (J.filter (fun s => C.contains s)).length

/-- The local `exact_score = exact_matches / len(job_set) if job_set
else 0`. -/
def exactScoreOf (C J : List String) : ℚ :=
  if J ≠ [] then (exactMatches C J : ℚ) / (J.length : ℚ) else 0

/-- The local `unmatched_job_skills = job_set - candidate_set`. -/
def unmatchedJob (C J : List String) : List String := J.filter (fun s => !(C.contains s))

/-- The local `unmatched_candidate_skills = candidate_set - job_set`. -/
def unmatchedCand (C J : List String) : List String := C.filter (fun s => !(J.contains s))

/-- The local `fuzzy_matches`: for each unmatched job skill whose best
fuzzy ratio is positive, add that best ratio. -/
def fuzzyMatchesOf (C J : List String) : ℚ :=
  (unmatchedJob C J).foldl (fun acc js =>
    let b := bestFuzzy (unmatchedCand C J) js
    if 0 < b then acc + b else acc) 0

/-- The local `fuzzy_score`, computed only when both unmatched sets are
non-empty. -/
def fuzzyScoreOf (C J : List String) : ℚ :=
  if unmatchedJob C J ≠ [] ∧ unmatchedCand C J ≠ [] then
    fuzzyMatchesOf C J / ((unmatchedJob C J).length : ℚ)
  else 0

/-- The local `coverage_score = (exact_matches + fuzzy_score *
len(unmatched_job_skills)) / len(job_set)`.  This division is unguarded
in the source; the model's `x / 0 = 0` stands where Python would raise
`ZeroDivisionError` (possible only when a non-empty `job_skills`
normalizes to the empty set, a path no statement below goes through:
inside `match_jobs` such a job would be skipped by the `try/except`). -/
def coverageScoreOf (C J : List String) : ℚ :=
  ((exactMatches C J : ℚ) + fuzzyScoreOf C J * ((unmatchedJob C J).length : ℚ)) /
    (J.length : ℚ)

/-- The local `bonus = min(0.1, (len(candidate_set) - len(job_set)) *
0.02) if len(candidate_set) > len(job_set) else 0`. -/
def bonusOf (C J : List String) : ℚ :=
  if J.length < C.length then min (1/10) (((C.length : ℚ) - (J.length : ℚ)) * (1/50))
  else 0

/-- The function `calculate_skill_similarity`:
`min(1.0, exact_score*0.7 + fuzzy_score*0.2 + coverage_score*0.1 +
bonus)`, or `0.0` when either input list is empty. -/
def calculate_skill_similarity (candidate_skills job_skills : List String) : ℚ :=
  if candidate_skills = [] ∨ job_skills = [] then 0
  else
    let C := normalize_skills candidate_skills
    let J := normalize_skills job_skills
    min 1 (exactScoreOf C J * (7/10) + fuzzyScoreOf C J * (1/5) +
      coverageScoreOf C J * (1/10) + bonusOf C J)

/-! ## `extract_years` -/

/-- Numeric value of a digit string. -/
def ratOfDigits (l : List Char) : ℚ :=
  ((l.foldl (fun n c => n * 10 + (c.toNat - '0'.toNat)) 0 : Nat) : ℚ)

/-- Greedy parse of the regex group `(\d+(?:\.\d+)?)` at the head of the
input: the matched text and the remaining input.  Fails if the input does
not start with a digit. -/
def parseNum (l : List Char) : Option (List Char × List Char) :=
  let ds := l.takeWhile Char.isDigit
  if ds = [] then none
  else
    match l.drop ds.length with
    | '.' :: r2 =>
      let fs := r2.takeWhile Char.isDigit
      if fs = [] then some (ds, l.drop ds.length)
      else some (ds ++ '.' :: fs, r2.drop fs.length)
    | r => some (ds, r)

/-- Numeric value of a matched group (digits, optionally dot digits). -/
def ratOfGroup (g : List Char) : ℚ :=
  let ip := g.takeWhile Char.isDigit
  match g.drop ip.length with
  | '.' :: fp => ratOfDigits ip + ratOfDigits fp / (10 : ℚ) ^ fp.length
  | _ => ratOfDigits ip

/-- Regex `\s*`: greedily drop whitespace. -/
def skipWS (l : List Char) : List Char := l.dropWhile Char.isWhitespace

/-- Match a literal at the head of the input, returning the rest. -/
def litP (pat l : List Char) : Option (List Char) :=
  if pat.isPrefixOf l then some (l.drop pat.length) else none

/-- Pattern `(\d+(?:\.\d+)?)\s*(?:to|-)\s*(\d+(?:\.\d+)?)\s*years?`,
anchored at the head of the input (the optional trailing `s` needs no
test since nothing follows it). -/
def patYearsRange (l : List Char) : Option (List (List Char)) :=
  match parseNum l with
  | none => none
  | some (g1, r) =>
    match (litP "to".data (skipWS r)).orElse (fun _ => litP "-".data (skipWS r)) with
    | none => none
    | some r2 =>
      match parseNum (skipWS r2) with
      | none => none
      | some (g2, r3) =>
        match litP "year".data (skipWS r3) with
        | none => none
        | some _ => some [g1, g2]

/-- Pattern `(\d+(?:\.\d+)?)\+?\s*years?`, anchored. -/
def patYears (l : List Char) : Option (List (List Char)) :=
  match parseNum l with
  | none => none
  | some (g, r) =>
    let r1 := match r with
      | '+' :: t => t
      | _ => r
    match litP "year".data (skipWS r1) with
    | none => none
    | some _ => some [g]

/-- Pattern `(\d+(?:\.\d+)?)\s*(?:to|-)\s*(\d+(?:\.\d+)?)\s*months?`,
anchored. -/
def patMonthsRange (l : List Char) : Option (List (List Char)) :=
  match parseNum l with
  | none => none
  | some (g1, r) =>
    match (litP "to".data (skipWS r)).orElse (fun _ => litP "-".data (skipWS r)) with
    | none => none
    | some r2 =>
      match parseNum (skipWS r2) with
      | none => none
      | some (g2, r3) =>
        match litP "month".data (skipWS r3) with
        | none => none
        | some _ => some [g1, g2]

/-- Pattern `(\d+(?:\.\d+)?)\s*months?`, anchored. -/
def patMonths (l : List Char) : Option (List (List Char)) :=
  match parseNum l with
  | none => none
  | some (g, r) =>
    match litP "month".data (skipWS r) with
    | none => none
    | some _ => some [g]

/-- Pattern `over\s+(\d+(?:\.\d+)?)\s*years?`, anchored (`\s+` demands at
least one whitespace character). -/
def patOver (l : List Char) : Option (List (List Char)) :=
  match litP "over".data l with
  | none => none
  | some (c :: r) =>
    if c.isWhitespace then
      match parseNum (skipWS r) with
      | none => none
      | some (g, r2) =>
        match litP "year".data (skipWS r2) with
        | none => none
        | some _ => some [g]
    else none
  | some [] => none

/-- Pattern `more\s+than\s+(\d+(?:\.\d+)?)\s*years?`, anchored. -/
def patMoreThan (l : List Char) : Option (List (List Char)) :=
  match litP "more".data l with
  | none => none
  | some (c :: r) =>
    if c.isWhitespace then
      match litP "than".data (skipWS r) with
      | none => none
      | some (c2 :: r2) =>
        if c2.isWhitespace then
          match parseNum (skipWS r2) with
          | none => none
          | some (g, r3) =>
            match litP "year".data (skipWS r3) with
            | none => none
            | some _ => some [g]
        else none
      | some [] => none
    else none
  | some [] => none

/-- Pattern `(\d+(?:\.\d+)?)\s*yr?s?`, anchored: after the number and
optional whitespace a literal `y` is required (`r` and `s` are optional
and tested by nothing afterwards). -/
def patYr (l : List Char) : Option (List (List Char)) :=
  match parseNum l with
  | none => none
  | some (g, r) =>
    match skipWS r with
    | 'y' :: _ => some [g]
    | _ => none

/-- Leftmost match: try the anchored pattern at each start position, left
to right (the first match is `re.findall(...)[0]`). -/
def scanPattern (p : List Char → Option (List (List Char))) : List Char → Option (List (List Char))
  | [] => p []
  | c :: t =>
    match p (c :: t) with
    | some g => some g
    | none => scanPattern p t

/-- Value extracted from the first match, reproducing the source's
`len(matches[0]) == 2` test: for a two-group (range) pattern
`matches[0]` is a 2-tuple, so its first group is returned (with no
month conversion, as in the source); for a one-group pattern
`matches[0]` is the matched string, so when that string has length 2 the
tuple unpacking `min_exp, max_exp = matches[0]` splits its characters
and the value of the first character is returned; otherwise the value of
the group, divided by 12 when the pattern is a month pattern. -/
def groupValue (isMonth : Bool) (groups : List (List Char)) : ℚ :=
  match groups with
  | [g1, _] => ratOfGroup g1
  | [g] =>
    if g.length = 2 then
      match g with
      | c :: _ => ratOfDigits [c]
      | [] => 0
    else
      let v := ratOfGroup g
      if isMonth then v / 12 else v
  | _ => 0

/-- Try the patterns in their priority order; the first with a match
supplies the result. -/
def tryPats : List ((List Char → Option (List (List Char))) × Bool) → List Char → ℚ
  | [], _ => 0
  | (p, m) :: rest, l =>
    match scanPattern p l with
    | some gs => groupValue m gs
    | none => tryPats rest l

/-- The pattern list of `extract_years`, with the `'month' in pattern`
flag. -/
def expPatterns : List ((List Char → Option (List (List Char))) × Bool) :=
  [(patYearsRange, false), (patYears, false), (patMonthsRange, true), (patMonths, true),
   (patOver, false), (patMoreThan, false), (patYr, false)]

/-- The function `extract_years`: lower-case the text, try the patterns
in order, return `0` when nothing matches (or the text is empty). -/
def extract_years (exp_text : String) : ℚ :=
  if exp_text = "" then 0
  else tryPats expPatterns (lowerData exp_text.data)

/-! ## `calculate_experience_score` and `apply_scoring_curve` -/

/-- The function `calculate_experience_score`.  Python's `x ** 0.5` is
`Real.sqrt x` (its argument is non-negative on every path reached from
`match_jobs`, since extracted years are non-negative). -/
noncomputable def calculate_experience_score (candidate_exp required_exp : ℝ) : ℝ :=
  if required_exp = 0 then 1
  else if required_exp ≤ candidate_exp then
    min 1 (1 + min (1/10) ((candidate_exp - required_exp) * (1/20)))
  else Real.sqrt (candidate_exp / required_exp)

/-- The function `apply_scoring_curve`: the logistic
`1 / (1 + exp(-k*(score - x0)))` with `k = 6`, `x0 = 0.5`. -/
noncomputable def apply_scoring_curve (score : ℝ) : ℝ :=
  1 / (1 + Real.exp (-(6 : ℝ) * (score - 1/2)))

/-! ## `calculate_education_score` -/

/-- Highest education level mentioned in any of the lines: for each
lowered line, every `EDUCATION_LEVELS` key occurring in it as a
substring contributes its value.  Used for the candidate's lines and for
the job's keywords alike. -/
def maxLevel (lines : List String) : Nat :=
  lines.foldl (fun m line =>
    EDUCATION_LEVELS.foldl (fun m lv =>
      if substrOf lv.1.data (lowerData line.data) then max m lv.2 else m) m) 0

/-- Python `' '.join(lines)` on character lists. -/
def joinSpace (lines : List String) : List Char :=
  ((lines.map String.data).intersperse " ".data).flatten

/-- The function `calculate_education_score`. -/
def calculate_education_score (candidate_edu job_edu_keywords : List String) : ℚ :=
  if job_edu_keywords = [] then 1
  else if candidate_edu = [] then 2/5
  else
    let candidate_text := lowerData (joinSpace candidate_edu)
    let maxCand := maxLevel candidate_edu
    let maxReq := maxLevel job_edu_keywords
    let keyword_matches :=
      job_edu_keywords.countP (fun kw => substrOf (lowerData kw.data) candidate_text)
    let keyword_score : ℚ := (keyword_matches : ℚ) / (job_edu_keywords.length : ℚ)
    let level_score : ℚ :=
      if maxReq ≤ maxCand then 1
      else if 0 < maxCand then (maxCand : ℚ) / (maxReq : ℚ)
      else 1/2
    max keyword_score level_score

/-! ## Records and `match_jobs` -/

/-- A candidate profile (spec section 3); absent dict keys are `none`. -/
structure CandidateProfile where
  skills : Option (List String)
  experience : Option String
  education : Option (List String)
  location : Option String

/-- A job posting (spec section 3); absent dict keys are `none`. -/
structure JobPosting where
  id : Option String
  title : Option String
  company : Option String
  skills : Option (List String)
  min_experience : Option ℚ
  education_keywords : Option (List String)
  location : Option String

/-- The `scores` record of a match result. -/
structure SubScores where
  skill : ℝ
  experience : ℝ
  education : ℝ
  raw_final : ℝ
  final : ℝ

/-- One element of the list returned by `match_jobs`. -/
structure MatchResult where
  id : String
  title : String
  company : String
  match_percentage : ℝ
  scores : SubScores

/-- Python `round(x, n)` (ties modelled away from zero; no statement
below sits on an exact tie). -/
noncomputable def roundTo (n : Nat) (x : ℝ) : ℝ :=
  ((round (x * (10 : ℝ) ^ n) : ℤ) : ℝ) / (10 : ℝ) ^ n

/-- Location-overlap test of `match_jobs`: some candidate-location word
longer than 2 characters occurs in the job location. -/
def hasLocOverlap (cand_loc job_loc : List Char) : Bool :=
  (splitWSAux cand_loc []).any (fun w => decide (2 < w.length) && substrOf w job_loc)

/-- The four per-job quantities computed inside the `match_jobs` loop:
skill score, experience score, education score, location bonus. -/
noncomputable def jobSubScores (cand : CandidateProfile) (job : JobPosting) : ℚ × ℝ × ℚ × ℚ :=
  let candidate_location := lowerData (cand.location.getD "").data
  let job_location := lowerData (job.location.getD "").data
  (calculate_skill_similarity (cand.skills.getD []) (job.skills.getD []),
   calculate_experience_score ((extract_years (cand.experience.getD "") : ℚ) : ℝ)
     ((job.min_experience.getD 0 : ℚ) : ℝ),
   calculate_education_score (cand.education.getD []) (job.education_keywords.getD []),
   if candidate_location ≠ [] ∧ job_location ≠ [] ∧ hasLocOverlap candidate_location job_location
   then 1/20 else 0)

/-- The clamped raw linear score `min(1.0, 0.5*skill + 0.3*exp + 0.2*edu
+ location_bonus)`. -/
noncomputable def rawScoreOf (cand : CandidateProfile) (job : JobPosting) : ℝ :=
  let s := jobSubScores cand job
  min 1 ((SKILL_WEIGHT : ℝ) * (s.1 : ℝ) + (EXP_WEIGHT : ℝ) * s.2.1 +
    (EDU_WEIGHT : ℝ) * (s.2.2.1 : ℝ) + (s.2.2.2 : ℝ))

/-- The `job_result` dict built for one job inside `match_jobs`. -/
noncomputable def processJob (cand : CandidateProfile) (job : JobPosting) : MatchResult :=
  let s := jobSubScores cand job
  let raw_final_score := rawScoreOf cand job
  let final_score := apply_scoring_curve raw_final_score
  { id := job.id.getD "", title := job.title.getD "", company := job.company.getD "",
    match_percentage := roundTo 1 (final_score * 100),
    scores :=
      { skill := roundTo 3 (s.1 : ℝ),
        experience := roundTo 3 s.2.1,
        education := roundTo 3 (s.2.2.1 : ℝ),
        raw_final := roundTo 3 raw_final_score,
        final := roundTo 3 final_score } }

/-- The function `match_jobs` over an already-loaded pool: score each
well-formed job, skip entries whose processing raises (`none`), then
`job_results.sort(key=lambda x: x["scores"]["final"], reverse=True)` — a
stable descending sort on the stored `final`. -/
noncomputable def match_jobs (cand : CandidateProfile) (pool : List (Option JobPosting)) :
    List MatchResult :=
  let job_results := pool.filterMap (fun oj => oj.map (processJob cand))
  job_results.mergeSort (fun a b => decide (b.scores.final ≤ a.scores.final))

/-! ## Properties of the set model -/

/-- Membership in `insertUniq`. -/
theorem mem_insertUniq {l : List String} {s t : String} :
    t ∈ insertUniq l s ↔ t ∈ l ∨ t = s := by
  unfold insertUniq
  split
  · constructor
    · exact Or.inl
    · rintro (h | rfl)
      · exact h
      · assumption
  · simp [List.mem_append]

/-- The set model stays duplicate-free under insertion. -/
theorem nodup_insertUniq {l : List String} {s : String} (h : l.Nodup) :
    (insertUniq l s).Nodup := by
  unfold insertUniq
  split
  · exact h
  · rw [← List.concat_eq_append]
    exact List.Nodup.concat (by assumption) h

/-- The set model stays duplicate-free under `set.update`. -/
theorem nodup_addAll {l : List String} (xs : List String) (h : l.Nodup) :
    (addAll l xs).Nodup :=
  List.foldlRecOn xs insertUniq l h (fun _ hb _ _ => nodup_insertUniq hb)

/-- Normalized skill sets are duplicate-free. -/
theorem normalize_skills_nodup (skills : List String) : (normalize_skills skills).Nodup := by
  unfold normalize_skills
  refine List.foldlRecOn skills _ [] List.nodup_nil (fun acc hb skill _ => ?_)
  dsimp only
  split
  · exact hb
  · cases hfind : SKILL_SYNONYMS.find? (fun g => g.2.contains (cleanSkill skill)) with
    | none => simp only [hfind]; exact nodup_insertUniq hb
    | some g => simp only [hfind]; exact nodup_addAll _ (nodup_insertUniq hb)

/-- When the two normalized sets have the same members (and are
non-empty), every job skill is an exact match, no fuzzy matching occurs,
and the similarity comes out as `0.7 + 0.1 = 0.8`. -/
theorem sim_of_same_members (cs js : List String)
    (hjs : normalize_skills js ≠ [])
    (h1 : ∀ s ∈ normalize_skills js, s ∈ normalize_skills cs)
    (h2 : ∀ s ∈ normalize_skills cs, s ∈ normalize_skills js) :
    calculate_skill_similarity cs js = 4/5 := by
  have hjs0 : js ≠ [] := by
    intro h
    exact hjs (by rw [h]; rfl)
  obtain ⟨s0, hs0⟩ := List.exists_mem_of_ne_nil _ hjs
  have hcs0 : cs ≠ [] := by
    intro h
    have := h1 s0 hs0
    rw [h] at this
    exact absurd this (List.not_mem_nil s0)
  have hexact : exactMatches (normalize_skills cs) (normalize_skills js) =
      (normalize_skills js).length := by
    unfold exactMatches
    rw [List.filter_eq_self.mpr (fun a ha => List.elem_iff.mpr (h1 a ha))]
  have huJ : unmatchedJob (normalize_skills cs) (normalize_skills js) = [] := by
    unfold unmatchedJob
    exact List.filter_eq_nil_iff.mpr (fun a ha => by
      rw [show (normalize_skills cs).contains a = true from List.elem_iff.mpr (h1 a ha)]
      simp)
  have hlen : (normalize_skills cs).length = (normalize_skills js).length :=
    Nat.le_antisymm
      ((List.subperm_of_subset (normalize_skills_nodup cs) h2).length_le)
      ((List.subperm_of_subset (normalize_skills_nodup js) h1).length_le)
  have hne : ((normalize_skills js).length : ℚ) ≠ 0 := by
    rw [Nat.cast_ne_zero]
    intro h
    exact hjs (List.length_eq_zero.mp h)
  have hes : exactScoreOf (normalize_skills cs) (normalize_skills js) = 1 := by
    unfold exactScoreOf
    rw [if_pos hjs, hexact, div_self hne]
  have hfs : fuzzyScoreOf (normalize_skills cs) (normalize_skills js) = 0 := by
    unfold fuzzyScoreOf
    rw [if_neg (by rw [huJ]; simp)]
  have hcov : coverageScoreOf (normalize_skills cs) (normalize_skills js) = 1 := by
    unfold coverageScoreOf
    rw [hexact, hfs, huJ]
    simp only [List.length_nil, Nat.cast_zero, zero_mul, add_zero, div_self hne]
  have hb : bonusOf (normalize_skills cs) (normalize_skills js) = 0 := by
    unfold bonusOf
    rw [if_neg (by rw [hlen]; exact lt_irrefl _)]
  unfold calculate_skill_similarity
  rw [if_neg (by push_neg; exact ⟨hcs0, hjs0⟩)]
  simp only [hes, hfs, hcov, hb]
  norm_num

/-! ## Range facts for the individual scorers -/

/-- Exact-match component is non-negative. -/
theorem exactScoreOf_nonneg (C J : List String) : 0 ≤ exactScoreOf C J := by
  unfold exactScoreOf
  split
  · exact div_nonneg (Nat.cast_nonneg _) (Nat.cast_nonneg _)
  · exact le_rfl

/-- The fuzzy-match accumulator never goes below zero. -/
theorem fuzzyMatchesOf_nonneg (C J : List String) : 0 ≤ fuzzyMatchesOf C J := by
  unfold fuzzyMatchesOf
  refine List.foldlRecOn _ _ 0 le_rfl (fun acc hacc js _ => ?_)
  dsimp only
  split
  · next h => exact add_nonneg hacc h.le
  · exact hacc

/-- Fuzzy component is non-negative. -/
theorem fuzzyScoreOf_nonneg (C J : List String) : 0 ≤ fuzzyScoreOf C J := by
  unfold fuzzyScoreOf
  split
  · exact div_nonneg (fuzzyMatchesOf_nonneg C J) (Nat.cast_nonneg _)
  · exact le_rfl

/-- Coverage component is non-negative. -/
theorem coverageScoreOf_nonneg (C J : List String) : 0 ≤ coverageScoreOf C J := by
  unfold coverageScoreOf
  exact div_nonneg
    (add_nonneg (Nat.cast_nonneg _) (mul_nonneg (fuzzyScoreOf_nonneg C J) (Nat.cast_nonneg _)))
    (Nat.cast_nonneg _)

/-- Breadth bonus is non-negative. -/
theorem bonusOf_nonneg (C J : List String) : 0 ≤ bonusOf C J := by
  unfold bonusOf
  split
  · next h =>
    refine le_min (by norm_num) (mul_nonneg ?_ (by norm_num))
    rw [sub_nonneg]
    exact_mod_cast h.le
  · exact le_rfl

/-- The skill similarity is never negative. -/
theorem calculate_skill_similarity_nonneg (cs js : List String) :
    0 ≤ calculate_skill_similarity cs js := by
  unfold calculate_skill_similarity
  split
  · exact le_rfl
  · refine le_min (by norm_num) ?_
    have h1 := exactScoreOf_nonneg (normalize_skills cs) (normalize_skills js)
    have h2 := fuzzyScoreOf_nonneg (normalize_skills cs) (normalize_skills js)
    have h3 := coverageScoreOf_nonneg (normalize_skills cs) (normalize_skills js)
    have h4 := bonusOf_nonneg (normalize_skills cs) (normalize_skills js)
    nlinarith

/-- The skill similarity never exceeds `1`. -/
theorem calculate_skill_similarity_le_one (cs js : List String) :
    calculate_skill_similarity cs js ≤ 1 := by
  unfold calculate_skill_similarity
  split
  · norm_num
  · exact min_le_left _ _

/-! ## `extract_years` is non-negative -/

/-- Digit values are non-negative. -/
theorem ratOfDigits_nonneg (l : List Char) : 0 ≤ ratOfDigits l := Nat.cast_nonneg _

/-- Group values are non-negative. -/
theorem ratOfGroup_nonneg (g : List Char) : 0 ≤ ratOfGroup g := by
  simp only [ratOfGroup]
  split
  · exact add_nonneg (ratOfDigits_nonneg _)
      (div_nonneg (ratOfDigits_nonneg _) (by positivity))
  · exact ratOfDigits_nonneg _

/-- Whatever a pattern match yields, its numeric value is non-negative. -/
theorem groupValue_nonneg (m : Bool) (gs : List (List Char)) : 0 ≤ groupValue m gs := by
  unfold groupValue
  split
  · exact ratOfGroup_nonneg _
  · split
    · split
      · exact ratOfDigits_nonneg _
      · exact le_rfl
    · dsimp only
      split
      · exact div_nonneg (ratOfGroup_nonneg _) (by norm_num)
      · exact ratOfGroup_nonneg _
  · exact le_rfl

/-- The pattern cascade yields a non-negative value. -/
theorem tryPats_nonneg (ps : List ((List Char → Option (List (List Char))) × Bool))
    (l : List Char) : 0 ≤ tryPats ps l := by
  induction ps with
  | nil => exact le_rfl
  | cons p rest ih =>
    unfold tryPats
    cases scanPattern p.1 l with
    | none => simpa using ih
    | some gs => simpa using groupValue_nonneg p.2 gs

/-- Extracted years are never negative. -/
theorem extract_years_nonneg (s : String) : 0 ≤ extract_years s := by
  unfold extract_years
  split
  · exact le_rfl
  · exact tryPats_nonneg _ _

/-! ## Range facts for the education score -/

/-- The education score is non-negative. -/
theorem calculate_education_score_nonneg (ce ks : List String) :
    0 ≤ calculate_education_score ce ks := by
  unfold calculate_education_score
  split
  · norm_num
  · split
    · norm_num
    · exact le_max_of_le_left (div_nonneg (Nat.cast_nonneg _) (Nat.cast_nonneg _))

/-- The education score never exceeds `1`. -/
theorem calculate_education_score_le_one (ce ks : List String) :
    calculate_education_score ce ks ≤ 1 := by
  unfold calculate_education_score
  split
  · exact le_rfl
  · next hks =>
    split
    · norm_num
    · apply max_le
      · rw [div_le_one]
        · exact_mod_cast List.countP_le_length _
        · have : ks ≠ [] := hks
          have hpos : 0 < ks.length := List.length_pos.mpr this
          exact_mod_cast hpos
      · split
        · exact le_rfl
        · split
          · next hlt h0 =>
            rw [div_le_one]
            · exact_mod_cast (not_le.mp hlt).le
            · have : (0 : ℕ) < maxLevel ks := lt_of_le_of_lt (Nat.zero_le _) (not_le.mp hlt)
              exact_mod_cast this
          · norm_num

/-! ## Facts about `calculate_experience_score` -/

/-- No required experience gives full credit. -/
theorem calculate_experience_score_req_zero (c : ℝ) : calculate_experience_score c 0 = 1 := by
  unfold calculate_experience_score
  rw [if_pos rfl]

/-- An (over-)qualified candidate scores exactly `1`: the bonus is
non-negative, so the outer `min(1.0, 1.0 + bonus)` clamps to `1`. -/
theorem calculate_experience_score_over (c r : ℝ) (hr : r ≠ 0) (h : r ≤ c) :
    calculate_experience_score c r = 1 := by
  unfold calculate_experience_score
  rw [if_neg hr, if_pos h]
  have hb : 0 ≤ min (1/10 : ℝ) ((c - r) * (1/20)) :=
    le_min (by norm_num) (mul_nonneg (by linarith) (by norm_num))
  exact min_eq_left (by linarith)

/-- An under-qualified candidate scores the square root of the ratio. -/
theorem calculate_experience_score_under (c r : ℝ) (hr : r ≠ 0) (h : ¬ r ≤ c) :
    calculate_experience_score c r = Real.sqrt (c / r) := by
  unfold calculate_experience_score
  rw [if_neg hr, if_neg h]

/-- The experience score is never negative. -/
theorem calculate_experience_score_nonneg (c r : ℝ) : 0 ≤ calculate_experience_score c r := by
  unfold calculate_experience_score
  split_ifs with h1 h2
  · norm_num
  · refine le_min (by norm_num) ?_
    have : (0:ℝ) ≤ min (1/10) ((c - r) * (1/20)) :=
      le_min (by norm_num) (mul_nonneg (by linarith) (by norm_num))
    linarith
  · exact Real.sqrt_nonneg _

/-- For a non-negative candidate value the experience score never
exceeds `1`. -/
theorem calculate_experience_score_le_one (c r : ℝ) (hc : 0 ≤ c) :
    calculate_experience_score c r ≤ 1 := by
  unfold calculate_experience_score
  split_ifs with h1 h2
  · exact le_rfl
  · exact min_le_left _ _
  · have hcr : c < r := not_le.mp h2
    have hrpos : 0 < r := lt_of_le_of_lt hc hcr
    exact Real.sqrt_le_one.mpr ((div_le_one hrpos).mpr hcr.le)

/-- For a fixed requirement, more candidate experience never lowers the
score. -/
theorem calculate_experience_score_mono (r c1 c2 : ℝ) (h1 : 0 ≤ c1) (h12 : c1 ≤ c2) :
    calculate_experience_score c1 r ≤ calculate_experience_score c2 r := by
  by_cases hr0 : r = 0
  · subst hr0
    rw [calculate_experience_score_req_zero, calculate_experience_score_req_zero]
  · by_cases hq1 : r ≤ c1
    · rw [calculate_experience_score_over c1 r hr0 hq1,
        calculate_experience_score_over c2 r hr0 (le_trans hq1 h12)]
    · have hc1r : c1 < r := not_le.mp hq1
      have hrpos : 0 < r := lt_of_le_of_lt h1 hc1r
      rw [calculate_experience_score_under c1 r hr0 hq1]
      by_cases hq2 : r ≤ c2
      · rw [calculate_experience_score_over c2 r hr0 hq2]
        exact Real.sqrt_le_one.mpr ((div_le_one hrpos).mpr hc1r.le)
      · rw [calculate_experience_score_under c2 r hr0 hq2]
        exact Real.sqrt_le_sqrt ((div_le_div_iff_of_pos_right hrpos).mpr h12)

/-! ## Facts about `apply_scoring_curve` -/

/-- The curved score is strictly positive. -/
theorem apply_scoring_curve_pos (s : ℝ) : 0 < apply_scoring_curve s := by
  unfold apply_scoring_curve
  have := Real.exp_pos (-(6 : ℝ) * (s - 1/2))
  positivity

/-- The curved score is strictly below `1`. -/
theorem apply_scoring_curve_lt_one (s : ℝ) : apply_scoring_curve s < 1 := by
  unfold apply_scoring_curve
  have h := Real.exp_pos (-(6 : ℝ) * (s - 1/2))
  rw [div_lt_one (by linarith)]
  linarith

/-- The logistic curve is strictly increasing. -/
theorem apply_scoring_curve_strictMono : StrictMono apply_scoring_curve := by
  intro a b hab
  unfold apply_scoring_curve
  have hexp : Real.exp (-(6 : ℝ) * (b - 1/2)) < Real.exp (-(6 : ℝ) * (a - 1/2)) :=
    Real.exp_lt_exp.mpr (by linarith)
  have hbpos : (0:ℝ) < 1 + Real.exp (-(6 : ℝ) * (b - 1/2)) := by
    have := Real.exp_pos (-(6 : ℝ) * (b - 1/2))
    linarith
  exact one_div_lt_one_div_of_lt hbpos (by linarith)

/-- The inflection point: `curve(0.5) = 1 / (1 + exp 0) = 0.5` exactly. -/
theorem apply_scoring_curve_half : apply_scoring_curve (1/2) = 1/2 := by
  unfold apply_scoring_curve
  norm_num

/-! ## Facts about `roundTo` -/

/-- Rounding keeps non-negativity. -/
theorem roundTo_nonneg (n : Nat) (x : ℝ) (h0 : 0 ≤ x) : 0 ≤ roundTo n x := by
  unfold roundTo
  apply div_nonneg _ (by positivity)
  have hr : (0:ℤ) ≤ round (x * (10:ℝ) ^ n) := by
    rw [round_eq]
    refine Int.le_floor.mpr ?_
    have : (0:ℝ) ≤ x * (10:ℝ) ^ n := by positivity
    push_cast
    linarith
  exact_mod_cast hr

/-- Rounding keeps a natural upper bound. -/
theorem roundTo_le (n : Nat) (x : ℝ) (B : Nat) (h1 : x ≤ B) : roundTo n x ≤ B := by
  unfold roundTo
  rw [div_le_iff₀ (by positivity)]
  have hr : round (x * (10:ℝ) ^ n) ≤ (B : ℤ) * (10:ℤ) ^ n := by
    rw [round_eq, ← Int.lt_add_one_iff, Int.floor_lt]
    have hx : x * (10:ℝ) ^ n ≤ (B : ℝ) * (10:ℝ) ^ n :=
      mul_le_mul_of_nonneg_right h1 (by positivity)
    push_cast
    linarith
  calc ((round (x * (10:ℝ) ^ n) : ℤ) : ℝ) ≤ (((B : ℤ) * (10:ℤ) ^ n : ℤ) : ℝ) := by
        exact_mod_cast hr
    _ = (B : ℝ) * (10:ℝ) ^ n := by push_cast; ring

/-! ## Facts about the per-job pipeline -/

/-- First component of `jobSubScores` is the skill similarity. -/
theorem jobSubScores_skill (cand : CandidateProfile) (job : JobPosting) :
    (jobSubScores cand job).1 =
      calculate_skill_similarity (cand.skills.getD []) (job.skills.getD []) := rfl

/-- Second component of `jobSubScores` is the experience score. -/
theorem jobSubScores_exp (cand : CandidateProfile) (job : JobPosting) :
    (jobSubScores cand job).2.1 =
      calculate_experience_score ((extract_years (cand.experience.getD "") : ℚ) : ℝ)
        ((job.min_experience.getD 0 : ℚ) : ℝ) := rfl

/-- Third component of `jobSubScores` is the education score. -/
theorem jobSubScores_edu (cand : CandidateProfile) (job : JobPosting) :
    (jobSubScores cand job).2.2.1 =
      calculate_education_score (cand.education.getD []) (job.education_keywords.getD []) := rfl

/-- The location bonus is `0` or `1/20`, hence non-negative. -/
theorem jobSubScores_bonus_nonneg (cand : CandidateProfile) (job : JobPosting) :
    0 ≤ (jobSubScores cand job).2.2.2 := by
  unfold jobSubScores
  dsimp only
  split_ifs <;> norm_num

/-- The experience score fed with extracted years is in `[0, 1]`. -/
theorem jobSubScores_exp_mem (cand : CandidateProfile) (job : JobPosting) :
    0 ≤ (jobSubScores cand job).2.1 ∧ (jobSubScores cand job).2.1 ≤ 1 := by
  rw [jobSubScores_exp]
  have hc : (0:ℝ) ≤ ((extract_years (cand.experience.getD "") : ℚ) : ℝ) := by
    exact_mod_cast extract_years_nonneg _
  exact ⟨calculate_experience_score_nonneg _ _, calculate_experience_score_le_one _ _ hc⟩

/-- The clamped raw score is non-negative. -/
theorem rawScoreOf_nonneg (cand : CandidateProfile) (job : JobPosting) :
    0 ≤ rawScoreOf cand job := by
  unfold rawScoreOf
  refine le_min (by norm_num) ?_
  have h1 : (0:ℝ) ≤ ((jobSubScores cand job).1 : ℝ) := by
    rw [jobSubScores_skill]
    exact_mod_cast calculate_skill_similarity_nonneg _ _
  have h2 := (jobSubScores_exp_mem cand job).1
  have h3 : (0:ℝ) ≤ ((jobSubScores cand job).2.2.1 : ℝ) := by
    rw [jobSubScores_edu]
    exact_mod_cast calculate_education_score_nonneg _ _
  have h4 : (0:ℝ) ≤ ((jobSubScores cand job).2.2.2 : ℝ) := by
    exact_mod_cast jobSubScores_bonus_nonneg cand job
  have hw1 : (0:ℝ) ≤ (SKILL_WEIGHT : ℝ) := by norm_num [SKILL_WEIGHT]
  have hw2 : (0:ℝ) ≤ (EXP_WEIGHT : ℝ) := by norm_num [EXP_WEIGHT]
  have hw3 : (0:ℝ) ≤ (EDU_WEIGHT : ℝ) := by norm_num [EDU_WEIGHT]
  have := mul_nonneg hw1 h1
  have := mul_nonneg hw2 h2
  have := mul_nonneg hw3 h3
  linarith

/-- The clamped raw score never exceeds `1`. -/
theorem rawScoreOf_le_one (cand : CandidateProfile) (job : JobPosting) :
    rawScoreOf cand job ≤ 1 := by
  unfold rawScoreOf
  exact min_le_left _ _

/-! ## Numeric bounds for the curve at `0.85` -/

/-- Bounds for `exp(21/10)`, from the decimal bounds on `e` and the
tangent-line bounds `1 + x ≤ exp x` at `x = 1/20` and `x = -1/20`. -/
theorem exp_21_10_bounds :
    (8146/1000 : ℝ) < Real.exp (21/10) ∧ Real.exp (21/10) < 8188/1000 := by
  have hE : Real.exp (21/10) = Real.exp 1 * Real.exp 1 * Real.exp (1/20) * Real.exp (1/20) := by
    rw [← Real.exp_add, ← Real.exp_add, ← Real.exp_add]
    norm_num
  have h1l : (2.7182818283 : ℝ) < Real.exp 1 := Real.exp_one_gt_d9
  have h1u : Real.exp 1 < 2.7182818286 := Real.exp_one_lt_d9
  have h1p : (0:ℝ) < Real.exp 1 := Real.exp_pos 1
  have h2p : (0:ℝ) < Real.exp (1/20) := Real.exp_pos _
  have h2l : (21/20 : ℝ) ≤ Real.exp (1/20) := by
    have := Real.add_one_le_exp (1/20 : ℝ)
    linarith
  have h2u : Real.exp (1/20) ≤ 20/19 := by
    have h := Real.add_one_le_exp (-(1/20) : ℝ)
    rw [Real.exp_neg] at h
    have hmul : (Real.exp (1/20))⁻¹ * Real.exp (1/20) = 1 := inv_mul_cancel₀ (ne_of_gt h2p)
    nlinarith [mul_le_mul_of_nonneg_right h (le_of_lt h2p)]
  have ha2l : (7389056/1000000 : ℝ) < Real.exp 1 * Real.exp 1 := by nlinarith
  have ha2u : Real.exp 1 * Real.exp 1 < 7389057/1000000 := by nlinarith
  have hb2l : (441/400 : ℝ) ≤ Real.exp (1/20) * Real.exp (1/20) := by nlinarith
  have hb2u : Real.exp (1/20) * Real.exp (1/20) ≤ 400/361 := by nlinarith
  constructor
  · rw [hE]
    nlinarith
  · rw [hE]
    nlinarith

/-- The curved value of the raw score `0.85` lies strictly between
`0.8905` and `0.8915` (its value is `≈ 0.89090`). -/
theorem apply_scoring_curve_85_bounds :
    (1781/2000 : ℝ) < apply_scoring_curve (17/20) ∧
      apply_scoring_curve (17/20) < 1783/2000 := by
  unfold apply_scoring_curve
  have harg : -(6:ℝ) * (17/20 - 1/2) = -(21/10) := by norm_num
  rw [harg, Real.exp_neg]
  obtain ⟨hEl, hEu⟩ := exp_21_10_bounds
  have hEp : (0:ℝ) < Real.exp (21/10) := Real.exp_pos _
  have hsum : (1:ℝ) / (1 + (Real.exp (21/10))⁻¹) =
      Real.exp (21/10) / (Real.exp (21/10) + 1) := by
    field_simp
  rw [hsum]
  have hd : (0:ℝ) < Real.exp (21/10) + 1 := by linarith
  constructor
  · rw [lt_div_iff₀ hd]
    linarith
  · rw [div_lt_iff₀ hd]
    linarith

/-! ## List and sorting helpers for `match_jobs` -/

/-- Scoring then collecting equals collecting then scoring: the
well-formed pool entries, each scored once. -/
theorem filterMap_map_option (f : JobPosting → MatchResult) (pool : List (Option JobPosting)) :
    pool.filterMap (fun oj => oj.map f) = (pool.filterMap id).map f := by
  induction pool with
  | nil => rfl
  | cons oj t ih => cases oj <;> simp [List.filterMap_cons, ih]

/-- The comparator used by the final sort. -/
noncomputable def finalDesc (a b : MatchResult) : Bool :=
  decide (b.scores.final ≤ a.scores.final)

/-- The comparator is transitive. -/
theorem finalDesc_trans : ∀ a b c : MatchResult,
    finalDesc a b = true → finalDesc b c = true → finalDesc a c = true := by
  intro a b c hab hbc
  simp only [finalDesc, decide_eq_true_eq] at *
  exact le_trans hbc hab

/-- The comparator is total. -/
theorem finalDesc_total : ∀ a b : MatchResult, (finalDesc a b || finalDesc b a) = true := by
  intro a b
  simp only [finalDesc, Bool.or_eq_true, decide_eq_true_eq]
  exact le_total _ _

/-- `match_jobs` is the stable descending sort of the scored pool. -/
theorem match_jobs_eq_mergeSort (cand : CandidateProfile) (pool : List (Option JobPosting)) :
    match_jobs cand pool =
      (pool.filterMap (fun oj => oj.map (processJob cand))).mergeSort finalDesc := rfl

/-- The results of `match_jobs` are a permutation of the scored
well-formed pool entries. -/
theorem match_jobs_perm (cand : CandidateProfile) (pool : List (Option JobPosting)) :
    (match_jobs cand pool).Perm ((pool.filterMap id).map (processJob cand)) := by
  rw [match_jobs_eq_mergeSort, filterMap_map_option]
  exact List.mergeSort_perm _ _

/-! ## Projections of `processJob` -/

/-- Stored skill sub-score. -/
theorem processJob_skill (cand : CandidateProfile) (job : JobPosting) :
    (processJob cand job).scores.skill = roundTo 3 (((jobSubScores cand job).1 : ℚ) : ℝ) := rfl

/-- Stored experience sub-score. -/
theorem processJob_experience (cand : CandidateProfile) (job : JobPosting) :
    (processJob cand job).scores.experience = roundTo 3 (jobSubScores cand job).2.1 := rfl

/-- Stored education sub-score. -/
theorem processJob_education (cand : CandidateProfile) (job : JobPosting) :
    (processJob cand job).scores.education =
      roundTo 3 (((jobSubScores cand job).2.2.1 : ℚ) : ℝ) := rfl

/-- Stored raw combined score. -/
theorem processJob_raw (cand : CandidateProfile) (job : JobPosting) :
    (processJob cand job).scores.raw_final = roundTo 3 (rawScoreOf cand job) := rfl

/-- Stored curved score. -/
theorem processJob_final (cand : CandidateProfile) (job : JobPosting) :
    (processJob cand job).scores.final =
      roundTo 3 (apply_scoring_curve (rawScoreOf cand job)) := rfl

/-- Stored match percentage. -/
theorem processJob_pct (cand : CandidateProfile) (job : JobPosting) :
    (processJob cand job).match_percentage =
      roundTo 1 (apply_scoring_curve (rawScoreOf cand job) * 100) := rfl

/-- Rounding a value whose scaled form is an exact integer. -/
theorem roundTo_of_mul_eq_int (n : Nat) (x : ℝ) (z : ℤ) (h : x * (10:ℝ) ^ n = (z:ℝ)) :
    roundTo n x = (z:ℝ) / (10:ℝ) ^ n := by
  unfold roundTo
  rw [h, round_intCast]

/-- Rounding determined by open half-unit bounds. -/
theorem round_eq_int (y : ℝ) (z : ℤ) (hl : (z:ℝ) ≤ y + 1/2) (hu : y + 1/2 < (z:ℝ) + 1) :
    round y = z := by
  rw [round_eq]
  exact Int.floor_eq_iff.mpr ⟨hl, hu⟩

/-- A candidate record with every field missing. -/
def emptyCand : CandidateProfile := ⟨none, none, none, none⟩

/-- A job record with every field missing (a job dict without any of the
expected keys). -/
def emptyJob : JobPosting := ⟨none, none, none, none, none, none, none⟩

/-! ## Claim theorems -/

/-- C1 (counterexample): on the self-match `["python"]` — whose
normalization `{python, python3, py}` is non-empty — the similarity is
not `1.0`; the weights `0.7` (exact) and `0.1` (coverage) sum to `0.8`
and the fuzzy weight `0.2` is lost, so the claimed
`skill_similarity(S, S) = 1.0` is false. -/
theorem C1_counterexample :
    normalize_skills ["python"] ≠ [] ∧
      calculate_skill_similarity ["python"] ["python"] ≠ 1 := by
  refine ⟨by decide, ?_⟩
  rw [sim_of_same_members ["python"] ["python"] (by decide)
    (fun s hs => hs) (fun s hs => hs)]
  norm_num

/-- C1 (amended): for every skill list whose normalization is non-empty,
the self-similarity is exactly `0.8`: every job skill is an exact match,
no fuzzy matching occurs, and the score is
`1*0.7 + 0*0.2 + 1*0.1 + 0 = 0.8`, not `1.0`. -/
theorem C1_self_similarity (S : List String) (hS : normalize_skills S ≠ []) :
    calculate_skill_similarity S S = 4/5 :=
  sim_of_same_members S S hS (fun _ hs => hs) (fun _ hs => hs)

/-- C1 (witness): the amended claim evaluated at `["python"]`. -/
theorem C1_witness :
    normalize_skills ["python"] ≠ [] ∧
      calculate_skill_similarity ["python"] ["python"] = 4/5 :=
  ⟨by decide, C1_self_similarity ["python"] (by decide)⟩

/-- C9: missing or empty fields give the documented neutral defaults:
empty skill lists on either side give similarity `0`; an empty
education-keyword list gives education score `1.0`; education keywords
with an empty candidate education list give `0.4`. -/
theorem C9_neutral_defaults :
    (∀ J : List String, calculate_skill_similarity [] J = 0) ∧
    (∀ C : List String, calculate_skill_similarity C [] = 0) ∧
    (∀ ce : List String, calculate_education_score ce [] = 1) ∧
    (∀ ks : List String, ks ≠ [] → calculate_education_score [] ks = 2/5) := by
  refine ⟨fun J => ?_, fun C => ?_, fun ce => ?_, fun ks hks => ?_⟩
  · unfold calculate_skill_similarity
    rw [if_pos (Or.inl rfl)]
  · unfold calculate_skill_similarity
    rw [if_pos (Or.inr rfl)]
  · unfold calculate_education_score
    rw [if_pos rfl]
  · unfold calculate_education_score
    rw [if_neg hks, if_pos rfl]

/-- C9 (witness): the defaults at concrete inputs. -/
theorem C9_witness :
    calculate_skill_similarity [] ["python"] = 0 ∧
    calculate_skill_similarity ["python"] [] = 0 ∧
    calculate_education_score ["Bachelor of Science"] [] = 1 ∧
    calculate_education_score [] ["bachelor"] = 2/5 :=
  ⟨C9_neutral_defaults.1 _, C9_neutral_defaults.2.1 _, C9_neutral_defaults.2.2.1 _,
    C9_neutral_defaults.2.2.2 _ (by decide)⟩

/-- C6: the three branches of `calculate_experience_score`: full credit
when nothing is required; the overqualified branch returns
`min(1.0, 1.0 + min(0.1, (c-r)*0.05))`, which the outer clamp nullifies
to exactly `1.0`; the under-qualified branch returns the square-root of
the ratio, so `calculate_experience_score(5, 10) = (0.5)**0.5`. -/
theorem C6_experience_branches :
    (∀ c : ℝ, 0 ≤ c → calculate_experience_score c 0 = 1) ∧
    (∀ c r : ℝ, 0 < r → r ≤ c →
      calculate_experience_score c r = min 1 (1 + min (1/10) ((c - r) * (1/20))) ∧
      calculate_experience_score c r = 1) ∧
    (∀ c r : ℝ, 0 ≤ c → c < r → calculate_experience_score c r = Real.sqrt (c / r)) ∧
    calculate_experience_score 5 10 = Real.sqrt (1/2) := by
  refine ⟨fun c _ => calculate_experience_score_req_zero c, fun c r hr h => ⟨?_, ?_⟩,
    fun c r hc hlt => ?_, ?_⟩
  · unfold calculate_experience_score
    rw [if_neg hr.ne', if_pos h]
  · exact calculate_experience_score_over c r hr.ne' h
  · exact calculate_experience_score_under c r (lt_of_le_of_lt hc hlt).ne'
      (not_le.mpr hlt)
  · rw [calculate_experience_score_under 5 10 (by norm_num) (by norm_num)]
    norm_num

/-- C6 (witness): the branch values at concrete inputs. -/
theorem C6_witness :
    calculate_experience_score 0 0 = 1 ∧
    calculate_experience_score 3 2 = 1 ∧
    calculate_experience_score 5 10 = Real.sqrt (1/2) :=
  ⟨C6_experience_branches.1 0 le_rfl,
    (C6_experience_branches.2.1 3 2 (by norm_num) (by norm_num)).2,
    C6_experience_branches.2.2.2⟩

/-- C8: the scoring curve is strictly increasing, and its value at the
inflection point `0.5` is exactly `0.5`. -/
theorem C8_curve_monotone :
    StrictMono apply_scoring_curve ∧ apply_scoring_curve (1/2) = 1/2 :=
  ⟨apply_scoring_curve_strictMono, apply_scoring_curve_half⟩

/-- C8 (witness): strict monotonicity applied at `0 < 1`, and the
inflection value. -/
theorem C8_witness :
    apply_scoring_curve 0 < apply_scoring_curve 1 ∧ apply_scoring_curve (1/2) = 1/2 :=
  ⟨C8_curve_monotone.1 (by norm_num), C8_curve_monotone.2⟩

/-- C10: for any fixed requirement, the experience score is monotone
non-decreasing in the candidate's years: the square-root branch grows up
to the requirement and the overqualified branch stays at `1`. -/
theorem C10_experience_monotone (r c1 c2 : ℝ) (hr : 0 ≤ r) (h1 : 0 ≤ c1) (h12 : c1 ≤ c2) :
    calculate_experience_score c1 r ≤ calculate_experience_score c2 r :=
  calculate_experience_score_mono r c1 c2 h1 h12

/-- C10 (witness): monotonicity applied at requirement `2` and years
`1 ≤ 3`. -/
theorem C10_witness :
    calculate_experience_score 1 2 ≤ calculate_experience_score 3 2 :=
  C10_experience_monotone 2 1 3 (by norm_num) (by norm_num) (by norm_num)

/-- C2: for every candidate profile and every job processed by
`match_jobs`, the stored sub-scores `skill`, `experience`, `education`
and the combined `raw_final` all lie in `[0, 1]`, the reported
`match_percentage` is `round(final*100, 1)` for the curved final score,
and it lies in `[0, 100]`. -/
theorem C2_scores_bounded (cand : CandidateProfile) (job : JobPosting) :
    (0 ≤ (processJob cand job).scores.skill ∧ (processJob cand job).scores.skill ≤ 1) ∧
    (0 ≤ (processJob cand job).scores.experience ∧
      (processJob cand job).scores.experience ≤ 1) ∧
    (0 ≤ (processJob cand job).scores.education ∧
      (processJob cand job).scores.education ≤ 1) ∧
    (0 ≤ (processJob cand job).scores.raw_final ∧
      (processJob cand job).scores.raw_final ≤ 1) ∧
    (processJob cand job).match_percentage =
      roundTo 1 (apply_scoring_curve (rawScoreOf cand job) * 100) ∧
    (0 ≤ (processJob cand job).match_percentage ∧
      (processJob cand job).match_percentage ≤ 100) := by
  have hone : ((1:ℕ):ℝ) = 1 := by norm_num
  refine ⟨?_, ?_, ?_, ?_, processJob_pct cand job, ?_⟩
  · rw [processJob_skill]
    constructor
    · refine roundTo_nonneg _ _ ?_
      exact_mod_cast calculate_skill_similarity_nonneg _ _
    · rw [← hone]
      refine roundTo_le _ _ _ ?_
      rw [hone]
      have h := calculate_skill_similarity_le_one (cand.skills.getD []) (job.skills.getD [])
      rw [← jobSubScores_skill cand job] at h
      exact_mod_cast h
  · rw [processJob_experience]
    obtain ⟨hl, hu⟩ := jobSubScores_exp_mem cand job
    exact ⟨roundTo_nonneg _ _ hl, by rw [← hone]; exact roundTo_le _ _ _ (by rw [hone]; exact hu)⟩
  · rw [processJob_education]
    constructor
    · refine roundTo_nonneg _ _ ?_
      exact_mod_cast calculate_education_score_nonneg _ _
    · rw [← hone]
      refine roundTo_le _ _ _ ?_
      rw [hone]
      exact_mod_cast calculate_education_score_le_one _ _
  · rw [processJob_raw]
    exact ⟨roundTo_nonneg _ _ (rawScoreOf_nonneg cand job),
      by rw [← hone]; exact roundTo_le _ _ _ (by rw [hone]; exact rawScoreOf_le_one cand job)⟩
  · rw [processJob_pct]
    have hp := apply_scoring_curve_pos (rawScoreOf cand job)
    have hq := apply_scoring_curve_lt_one (rawScoreOf cand job)
    constructor
    · exact roundTo_nonneg _ _ (by nlinarith)
    · have h100 : ((100:ℕ):ℝ) = 100 := by norm_num
      rw [← h100]
      exact roundTo_le _ _ _ (by rw [h100]; nlinarith)

/-- C2 (witness): the bounds at the all-defaults candidate and job. -/
theorem C2_witness :
    0 ≤ (processJob emptyCand emptyJob).scores.skill ∧
      (processJob emptyCand emptyJob).match_percentage ≤ 100 :=
  ⟨(C2_scores_bounded emptyCand emptyJob).1.1,
    (C2_scores_bounded emptyCand emptyJob).2.2.2.2.2.2⟩

/-- C5 (counterexample): a job dict with every expected key missing is
not skipped: `match_jobs` scores it (the `dict.get` defaults make every
field neutral) and returns exactly one result for the one-job pool, so
"that job is skipped" is false. -/
theorem C5_counterexample : (match_jobs emptyCand [some emptyJob]).length = 1 := by
  rw [(match_jobs_perm emptyCand [some emptyJob]).length_eq]
  rfl

/-- C5 (amended): `match_jobs` never raises on a job dict with missing
keys — the missing fields take their neutral defaults and the job is
still scored (not skipped); a pool entry whose processing raises is
excluded from the results while every other job is scored exactly
once. -/
theorem C5_partial_failure (cand : CandidateProfile) (pool : List (Option JobPosting)) :
    (match_jobs cand pool).Perm ((pool.filterMap id).map (processJob cand)) :=
  match_jobs_perm cand pool

/-- C5 (witness): the amended claim at the singleton pool holding the
keyless job: the scored results are a permutation of that one scored
job. -/
theorem C5_witness :
    (match_jobs emptyCand [some emptyJob]).Perm
      ((([some emptyJob] : List (Option JobPosting)).filterMap id).map
        (processJob emptyCand)) :=
  C5_partial_failure emptyCand [some emptyJob]

/-- C7: `match_jobs` on the empty pool returns `[]`; it returns one
result per successfully processed job; the results are sorted by the
stored `final` in descending order; and the sort is stable — for every
value `v`, the results carrying `final = v` appear in exactly the pool's
processing order. -/
theorem C7_ranking :
    (∀ cand : CandidateProfile, match_jobs cand [] = []) ∧
    (∀ (cand : CandidateProfile) (pool : List (Option JobPosting)),
      (match_jobs cand pool).length = (pool.filterMap id).length) ∧
    (∀ (cand : CandidateProfile) (pool : List (Option JobPosting)),
      (match_jobs cand pool).Pairwise (fun a b => b.scores.final ≤ a.scores.final)) ∧
    (∀ (cand : CandidateProfile) (pool : List (Option JobPosting)) (v : ℝ),
      (match_jobs cand pool).filter (fun r => decide (r.scores.final = v)) =
        (pool.filterMap (fun oj => oj.map (processJob cand))).filter
          (fun r => decide (r.scores.final = v))) := by
  refine ⟨fun cand => by rw [match_jobs_eq_mergeSort]; exact List.mergeSort_nil,
    fun cand pool => ?_, fun cand pool => ?_, fun cand pool v => ?_⟩
  · rw [(match_jobs_perm cand pool).length_eq, List.length_map]
  · rw [match_jobs_eq_mergeSort]
    have h := List.sorted_mergeSort finalDesc_trans finalDesc_total
      (pool.filterMap (fun oj => oj.map (processJob cand)))
    exact h.imp (fun hab => by
      simpa only [finalDesc, decide_eq_true_eq] using hab)
  · rw [match_jobs_eq_mergeSort]
    set L := pool.filterMap (fun oj => oj.map (processJob cand)) with hL
    have hpw : (L.filter (fun r => decide (r.scores.final = v))).Pairwise
        (fun a b => finalDesc a b = true) := by
      refine List.pairwise_of_forall_mem_list (fun a ha b hb => ?_)
      have ha2 : a.scores.final = v := of_decide_eq_true (List.mem_filter.mp ha).2
      have hb2 : b.scores.final = v := of_decide_eq_true (List.mem_filter.mp hb).2
      simp only [finalDesc, decide_eq_true_eq, ha2, hb2, le_refl]
    have hsub : (L.filter (fun r => decide (r.scores.final = v))).Sublist
        (L.mergeSort finalDesc) :=
      List.sublist_mergeSort finalDesc_trans finalDesc_total hpw (List.filter_sublist L)
    have hsub2 : ((L.filter (fun r => decide (r.scores.final = v))).filter
        (fun r => decide (r.scores.final = v))).Sublist
        ((L.mergeSort finalDesc).filter (fun r => decide (r.scores.final = v))) :=
      hsub.filter _
    rw [List.filter_eq_self.mpr (fun a ha => (List.mem_filter.mp ha).2)] at hsub2
    have hperm : ((L.mergeSort finalDesc).filter (fun r => decide (r.scores.final = v))).Perm
        (L.filter (fun r => decide (r.scores.final = v))) :=
      (List.mergeSort_perm L finalDesc).filter _
    exact (hsub2.eq_of_length hperm.length_eq.symm).symm

/-- C7 (witness): the empty-pool case of the ranking claim. -/
theorem C7_witness : match_jobs emptyCand [] = [] := C7_ranking.1 emptyCand

/-! ## The end-to-end scenario of C3 -/

/-- The scenario candidate of spec section 8. -/
def cand3 : CandidateProfile :=
  ⟨some ["Python", "React"], some "3 years", some ["Bachelor of Science"], some "Jaipur"⟩

/-- The scenario job of spec section 8. -/
def job3 : JobPosting :=
  ⟨none, none, none, some ["python", "react", "sql"], some 2, some ["bachelor"],
    some "Jaipur, Rajasthan"⟩

/-- Skill similarity of the scenario: the normalized sets are
`{python, python3, py, react, reactjs, react.js}` (6 skills) and
`{python, python3, py, react, reactjs, react.js, sql, mysql}` (8), so 6
of 8 job skills match exactly, no fuzzy match is possible (no unmatched
candidate skill), and the score is
`min(1, 0.75*0.7 + 0 + 0.75*0.1 + 0) = 0.6`. -/
theorem sim3 :
    calculate_skill_similarity ["Python", "React"] ["python", "react", "sql"] = 3/5 := by
  have hC : normalize_skills ["Python", "React"] =
      ["python", "python3", "py", "react", "reactjs", "react.js"] := by decide
  have hJ : normalize_skills ["python", "react", "sql"] =
      ["python", "python3", "py", "react", "reactjs", "react.js", "sql", "mysql"] := by decide
  have he : exactScoreOf ["python", "python3", "py", "react", "reactjs", "react.js"]
      ["python", "python3", "py", "react", "reactjs", "react.js", "sql", "mysql"] = 3/4 := by
    unfold exactScoreOf
    rw [if_pos (by decide)]
    rw [show exactMatches ["python", "python3", "py", "react", "reactjs", "react.js"]
      ["python", "python3", "py", "react", "reactjs", "react.js", "sql", "mysql"] = 6 from
        by decide]
    norm_num
  have hf : fuzzyScoreOf ["python", "python3", "py", "react", "reactjs", "react.js"]
      ["python", "python3", "py", "react", "reactjs", "react.js", "sql", "mysql"] = 0 := by
    unfold fuzzyScoreOf
    rw [if_neg (by decide)]
  have hcov : coverageScoreOf ["python", "python3", "py", "react", "reactjs", "react.js"]
      ["python", "python3", "py", "react", "reactjs", "react.js", "sql", "mysql"] = 3/4 := by
    unfold coverageScoreOf
    rw [hf]
    rw [show exactMatches ["python", "python3", "py", "react", "reactjs", "react.js"]
      ["python", "python3", "py", "react", "reactjs", "react.js", "sql", "mysql"] = 6 from
        by decide]
    norm_num
  have hb : bonusOf ["python", "python3", "py", "react", "reactjs", "react.js"]
      ["python", "python3", "py", "react", "reactjs", "react.js", "sql", "mysql"] = 0 := by
    unfold bonusOf
    rw [if_neg (by decide)]
  unfold calculate_skill_similarity
  rw [if_neg (by simp)]
  simp only [hC, hJ, he, hf, hcov, hb]
  norm_num

/-- Experience text of the scenario parses to `3` years. -/
theorem years3 : extract_years "3 years" = 3 := by
  have h1 : scanPattern patYearsRange (lowerData "3 years".data) = none := by decide
  have h2 : scanPattern patYears (lowerData "3 years".data) = some [['3']] := by decide
  have h4 : List.takeWhile Char.isDigit ['3'] = ['3'] := by decide
  have h5 : '3'.toNat - '0'.toNat = 3 := by decide
  simp only [extract_years, expPatterns, tryPats, h1, h2]
  rw [if_neg (by decide)]
  simp only [groupValue, ratOfGroup, h4]
  norm_num [ratOfDigits, h5]

/-- Education score of the scenario: the single keyword `bachelor`
occurs in the candidate text and the levels agree at `3`, so both the
keyword score and the level score are `1`. -/
theorem edu3 : calculate_education_score ["Bachelor of Science"] ["bachelor"] = 1 := by
  have h1 : maxLevel ["Bachelor of Science"] = 3 := by decide
  have h2 : maxLevel ["bachelor"] = 3 := by decide
  have h3 : List.countP
      (fun kw => substrOf (lowerData kw.data) (lowerData (joinSpace ["Bachelor of Science"])))
      ["bachelor"] = 1 := by decide
  simp only [calculate_education_score, h1, h2, h3]
  norm_num

/-- The four sub-scores of the scenario: skill `0.6`, experience `1`
(overqualified, clamped), education `1`, location bonus `0.05`. -/
theorem jobSubScores3 : jobSubScores cand3 job3 = (3/5, 1, 1, 1/20) := by
  have h1 : (jobSubScores cand3 job3).1 = 3/5 := by
    rw [jobSubScores_skill]
    exact sim3
  have h2 : (jobSubScores cand3 job3).2.1 = 1 := by
    rw [jobSubScores_exp]
    show calculate_experience_score ((extract_years "3 years" : ℚ) : ℝ) (((2:ℚ) : ℚ) : ℝ) = 1
    rw [years3]
    rw [show (((3:ℚ)) : ℝ) = (3:ℝ) by norm_num, show (((2:ℚ)) : ℝ) = (2:ℝ) by norm_num]
    exact calculate_experience_score_over 3 2 (by norm_num) (by norm_num)
  have h3 : (jobSubScores cand3 job3).2.2.1 = 1 := by
    rw [jobSubScores_edu]
    exact edu3
  have h4 : (jobSubScores cand3 job3).2.2.2 = 1/20 := by
    show (jobSubScores cand3 job3).2.2.2 = 1/20
    unfold jobSubScores
    dsimp only
    rw [if_pos]
    refine ⟨by decide, by decide, by decide⟩
  have heta : jobSubScores cand3 job3 =
      ((jobSubScores cand3 job3).1, (jobSubScores cand3 job3).2.1,
        (jobSubScores cand3 job3).2.2.1, (jobSubScores cand3 job3).2.2.2) := rfl
  rw [heta, h1, h2, h3, h4]

/-- Raw combined score of the scenario:
`min(1, 0.5*0.6 + 0.3*1 + 0.2*1 + 0.05) = 0.85`. -/
theorem raw3 : rawScoreOf cand3 job3 = 17/20 := by
  unfold rawScoreOf
  rw [jobSubScores3]
  have : (SKILL_WEIGHT : ℝ) * (((3:ℚ)/5 : ℚ) : ℝ) + (EXP_WEIGHT : ℝ) * 1 +
      (EDU_WEIGHT : ℝ) * (((1:ℚ)) : ℝ) + (((1:ℚ)/20 : ℚ) : ℝ) = 17/20 := by
    norm_num [SKILL_WEIGHT, EXP_WEIGHT, EDU_WEIGHT]
  dsimp only
  rw [this]
  exact min_eq_right (by norm_num)

/-- Stored skill sub-score of the scenario is `0.600`. -/
theorem processJob3_skill : (processJob cand3 job3).scores.skill = 3/5 := by
  rw [processJob_skill, jobSubScores3]
  rw [roundTo_of_mul_eq_int 3 _ 600 (by push_cast; norm_num)]
  norm_num

/-- Stored experience sub-score of the scenario is `1.000`. -/
theorem processJob3_experience : (processJob cand3 job3).scores.experience = 1 := by
  rw [processJob_experience, jobSubScores3]
  rw [show ((3/5, 1, 1, 1/20) : ℚ × ℝ × ℚ × ℚ).2.1 = (1:ℝ) from rfl]
  rw [roundTo_of_mul_eq_int 3 _ 1000 (by norm_num)]
  norm_num

/-- Stored education sub-score of the scenario is `1.000`. -/
theorem processJob3_education : (processJob cand3 job3).scores.education = 1 := by
  rw [processJob_education, jobSubScores3]
  rw [roundTo_of_mul_eq_int 3 _ 1000 (by push_cast; norm_num)]
  norm_num

/-- Stored raw score of the scenario is `0.850`. -/
theorem processJob3_raw : (processJob cand3 job3).scores.raw_final = 17/20 := by
  rw [processJob_raw, raw3]
  rw [roundTo_of_mul_eq_int 3 _ 850 (by norm_num)]
  norm_num

/-- Stored curved score of the scenario is `0.891`. -/
theorem processJob3_final : (processJob cand3 job3).scores.final = 891/1000 := by
  rw [processJob_final, raw3]
  unfold roundTo
  obtain ⟨hl, hu⟩ := apply_scoring_curve_85_bounds
  rw [round_eq_int (apply_scoring_curve (17/20) * (10:ℝ)^3) 891
    (by push_cast; nlinarith) (by push_cast; nlinarith)]
  norm_num

/-- Reported match percentage of the scenario is `89.1`. -/
theorem processJob3_pct : (processJob cand3 job3).match_percentage = 891/10 := by
  rw [processJob_pct, raw3]
  unfold roundTo
  have harg : apply_scoring_curve (17/20) * 100 * (10:ℝ)^1 =
      apply_scoring_curve (17/20) * (10:ℝ)^3 := by ring
  rw [harg]
  obtain ⟨hl, hu⟩ := apply_scoring_curve_85_bounds
  rw [round_eq_int (apply_scoring_curve (17/20) * (10:ℝ)^3) 891
    (by push_cast; nlinarith) (by push_cast; nlinarith)]
  norm_num

/-- C3 (counterexample): on the spec's own end-to-end scenario the
engine produces skill sub-score `0.6` — not `≈ 0.667`, because synonym
expansion inflates the job set to 8 skills of which 6 match — and match
percentage `89.1`, not `≈ 98.6`. -/
theorem C3_counterexample :
    (processJob cand3 job3).scores.skill = 3/5 ∧
    (processJob cand3 job3).match_percentage = 891/10 ∧
    (3:ℝ)/5 < 667/1000 ∧ (891:ℝ)/10 < 986/10 :=
  ⟨processJob3_skill, processJob3_pct, by norm_num, by norm_num⟩

/-- C3 (amended): on the scenario candidate and job the engine produces
skill score `0.6` (6 of the 8 synonym-expanded job skills match
exactly), experience score `1.0`, education score `1.0`, location bonus
`0.05`, raw score `min(1, 0.5*0.6 + 0.3 + 0.2 + 0.05) = 0.85`, curved
final `≈ 0.891` (stored as `0.891`), and match percentage `89.1`. -/
theorem C3_scenario :
    jobSubScores cand3 job3 = (3/5, 1, 1, 1/20) ∧
    (processJob cand3 job3).scores.skill = 3/5 ∧
    (processJob cand3 job3).scores.experience = 1 ∧
    (processJob cand3 job3).scores.education = 1 ∧
    (processJob cand3 job3).scores.raw_final = 17/20 ∧
    (processJob cand3 job3).scores.final = 891/1000 ∧
    (processJob cand3 job3).match_percentage = 891/10 :=
  ⟨jobSubScores3, processJob3_skill, processJob3_experience, processJob3_education,
    processJob3_raw, processJob3_final, processJob3_pct⟩

/-- C4 (counterexample): the token `sql` belongs to the synonym lists of
both the `mysql` group and the `postgresql` group, but `normalize_skills`
breaks after the first matching group, so `postgres` is not added: the
claim that every group containing the token contributes its full list is
false. -/
theorem C4_counterexample :
    ("postgresql", ["postgresql", "postgres", "sql"]) ∈ SKILL_SYNONYMS ∧
    "sql" ∈ ["postgresql", "postgres", "sql"] ∧
    "postgres" ∉ normalize_skills ["sql"] := by
  refine ⟨by decide, by decide, by decide⟩

/-- C4 (amended): only the first synonym group (in table order) whose
list contains the cleaned token is unioned into the result —
`normalize_skills(["sql"])` is exactly `{sql, mysql}` — and synonym
expansion still makes `skill_similarity(["js"], ["javascript"])` score
its exact-match component as if both sides were literal equals: it
coincides with the self-match `skill_similarity(["javascript"],
["javascript"])`. -/
theorem C4_first_group :
    normalize_skills ["sql"] = ["sql", "mysql"] ∧
    calculate_skill_similarity ["js"] ["javascript"] =
      calculate_skill_similarity ["javascript"] ["javascript"] := by
  refine ⟨by decide, ?_⟩
  have h1 : calculate_skill_similarity ["js"] ["javascript"] = 4/5 :=
    sim_of_same_members ["js"] ["javascript"] (by decide) (by decide) (by decide)
  have h2 : calculate_skill_similarity ["javascript"] ["javascript"] = 4/5 :=
    sim_of_same_members ["javascript"] ["javascript"] (by decide)
      (fun s hs => hs) (fun s hs => hs)
  rw [h1, h2]
